import Mathlib

/-!
Shallow embedding of the `rust-imagelib` crate (`src/lib.rs`, `src/errors.rs`).

Modelling conventions:
* A pixel buffer (`image::DynamicImage` seen through its `GenericImageView`
  interface, whose pixel type is `Rgba<u8>`) is `Img`: a width, a height and a
  pixel accessor.  `u8` channel values are `Nat`; every arithmetic step the
  embedded code performs on them (`/ 2`, `+`) stays below 256, so `Nat`
  agrees with `u8`.
* `f32` quantities (font scales, font metrics, glyph advances) are modelled
  as exact rationals `ℚ`; the `as i32` cast is truncation toward zero
  (`qtrunc`) and Rust `i32` division is truncating division (`Int.tdiv`).
* External collaborators are modelled at their interface: the rotation
  semantics of the `image` crate (documented clockwise quarter turns), the
  `rusttype` font (an abstract record of metrics and glyph layout), the
  `textwrap` word-wrapper (an abstract `String → Nat → String` black box),
  and `imageproc::draw_text_mut` (recorded as an emitted draw command).
  Variants that require file or network I/O (`Filename`, `Bytes`, `Base64`,
  `Url`) are outside the embedded fragment.
-/

/-- Model of `image::Rgba<u8>`: the pixel type of the `GenericImageView`
view of a `DynamicImage` (`get_pixel`/`put_pixel` convert through it). -/
structure Pix where
  r : Nat
  g : Nat
  b : Nat
  a : Nat
  deriving DecidableEq, Repr

/-- A pixel buffer: dimensions plus a pixel accessor.  Only coordinates with
`x < w` and `y < h` are meaningful. -/
structure Img where
  w : Nat
  h : Nat
  pix : Nat → Nat → Pix

/-- Model of `errors.rs`: the `Errors` enum (payload-free in the embedded
fragment; payload-carrying I/O variants never arise here). -/
inductive Errors where
  | InvalidFont
  | InvalidImageType
  | InvalidResizeFilter
  | InputImageAlreadyUsed
  | IOError
  | ImageError
  deriving DecidableEq, Repr

/-- Model of `image::imageops::FilterType`, the target of `filter_from_str`. -/
inductive FilterType where
  | Nearest
  | Triangle
  | CatmullRom
  | Gaussian
  | Lanczos3
  deriving DecidableEq, Repr

/-- `fill_color(color, size)` from `lib.rs`: allocate a `size.0 × size.1`
RGB buffer and put `color` at every pixel.  Seen through the rgba8 view an
RGB pixel has alpha 255. -/
def fill_color (color : Nat × Nat × Nat) (size : Nat × Nat) : Img :=
  { w := size.1
    h := size.2
    pix := fun _ _ => ⟨color.1, color.2.1, color.2.2, 255⟩ }

/-- The zero-initialised buffer `image::$x::new(w, h)` produces for each
buffer kind accepted by the `new_image!` macro, seen through the rgba8 view
(kinds without an alpha channel read back alpha 255, kinds with one read
back the stored zero). -/
def zeroed_image (type_ : String) (h w : Nat) : Img :=
  { w := w
    h := h
    pix := fun _ _ =>
      if type_ = "RgbaImage" ∨ type_ = "GrayAlphaImage" ∨ type_ = "Rgba32FImage" then
        ⟨0, 0, 0, 0⟩
      else
        ⟨0, 0, 0, 255⟩ }

/-- The `new_image!` macro from `lib.rs`, expanded at its single use site
with the kinds `RgbImage, RgbaImage, GrayImage, GrayAlphaImage, Rgb32FImage,
Rgba32FImage`: match the kind string, allocate on a hit, otherwise
`Errors::InvalidImageType`. -/
def new_image (type_ : String) (h w : Nat) : Except Errors Img :=
  match type_ with
  | "RgbImage" => .ok (zeroed_image "RgbImage" h w)
  | "RgbaImage" => .ok (zeroed_image "RgbaImage" h w)
  | "GrayImage" => .ok (zeroed_image "GrayImage" h w)
  | "GrayAlphaImage" => .ok (zeroed_image "GrayAlphaImage" h w)
  | "Rgb32FImage" => .ok (zeroed_image "Rgb32FImage" h w)
  | "Rgba32FImage" => .ok (zeroed_image "Rgba32FImage" h w)
  | _ => .error Errors.InvalidImageType

/-- `filter_from_str` from `lib.rs`: the five recognised resampling-filter
names; anything else is `Errors::InvalidResizeFilter`. -/
def filter_from_str (filter : String) : Except Errors FilterType :=
  match filter with
  | "Nearest" => .ok FilterType.Nearest
  | "Triangle" => .ok FilterType.Triangle
  | "CatmullRom" => .ok FilterType.CatmullRom
  | "Gaussian" => .ok FilterType.Gaussian
  | "Lanczos3" => .ok FilterType.Lanczos3
  | _ => .error Errors.InvalidResizeFilter

/-- Model of `DynamicImage::rotate90` from the `image` collaborator: a
clockwise quarter turn; dimensions swap and `dest(x, y) = src(y, h − 1 − x)`. -/
def Img.rotate90 (img : Img) : Img :=
  { w := img.h
    h := img.w
    pix := fun x y => img.pix y (img.h - 1 - x) }

/-- Model of `DynamicImage::rotate180` from the `image` collaborator:
dimensions are kept and `dest(x, y) = src(w − 1 − x, h − 1 − y)`. -/
def Img.rotate180 (img : Img) : Img :=
  { w := img.w
    h := img.h
    pix := fun x y => img.pix (img.w - 1 - x) (img.h - 1 - y) }

/-- Model of `DynamicImage::rotate270` from the `image` collaborator: a
counter-clockwise quarter turn; dimensions swap and
`dest(x, y) = src(w − 1 − y, x)`. -/
def Img.rotate270 (img : Img) : Img :=
  { w := img.h
    h := img.w
    pix := fun x y => img.pix (img.w - 1 - y) x }

/-- The per-pixel body of the `ColorBlend` arm of `ImageOperation::apply`:
`pixel[i] = pixel[i] / 2 + color[i] / 2` for the first three channels,
channel 3 (alpha) untouched. -/
def blend_pixel (color : Nat × Nat × Nat) (p : Pix) : Pix :=
  ⟨p.r / 2 + color.1 / 2, p.g / 2 + color.2.1 / 2, p.b / 2 + color.2.2 / 2, p.a⟩

/-- The `ColorBlend` arm of `ImageOperation::apply`: every in-bounds pixel
is read, blended with the constant colour and written back. -/
def color_blend (r g b : Nat) (image : Img) : Img :=
  { w := image.w
    h := image.h
    pix := fun x y =>
      if x < image.w ∧ y < image.h then blend_pixel (r, g, b) (image.pix x y)
      else image.pix x y }

/-- The fragment of the `ImageInputType` enum from `lib.rs` whose resolution
needs no file, codec or network collaborator. -/
inductive ImageInputType where
  | DynamicImage (image : Img)
  | Color (r g b : Nat) (size : Nat × Nat)
  | New (h w : Nat) (type_ : String)

/-- `ImageInputType::get_image` from `lib.rs` on the embedded fragment. -/
def ImageInputType.get_image : ImageInputType → Except Errors Img
  | .DynamicImage image => .ok image
  | .Color r g b size => .ok (fill_color (r, g, b) size)
  | .New h w type_ => new_image type_ h w

/-- The fragment of the `ImageOperation` enum from `lib.rs` whose `apply`
needs no external codec, resampler or font collaborator. -/
inductive ImageOperation where
  | ColorBlend (r g b : Nat)
  | Rotate90
  | Rotate180
  | Rotate270

/-- The corresponding arms of `ImageOperation::apply` from `lib.rs`. -/
def ImageOperation.apply : ImageOperation → Img → Except Errors Img
  | .ColorBlend r g b, image => .ok (color_blend r g b image)
  | .Rotate90, image => .ok image.rotate90
  | .Rotate180, image => .ok image.rotate180
  | .Rotate270, image => .ok image.rotate270

/-- The `for op in ops { image = op.apply(image)?; }` loop shared by
`ImageInput::get_image` and `ImageOperator::apply_all_operations`. -/
def applyOps : List ImageOperation → Img → Except Errors Img
  | [], image => .ok image
  | op :: rest, image =>
    match op.apply image with
    | .ok next => applyOps rest next
    | .error e => .error e

/-- The `ImageInput` struct from `lib.rs`: an input descriptor plus its own
operation list. -/
structure ImageInput where
  image_input_type : ImageInputType
  operations : List ImageOperation

/-- `ImageInput::get_image` from `lib.rs`: resolve the input, then fold the
operations left to right. -/
def ImageInput.get_image (input : ImageInput) : Except Errors Img :=
  match input.image_input_type.get_image with
  | .ok image => applyOps input.operations image
  | .error e => .error e

/-- The `ImageOperator` struct from `lib.rs`: an optional unconsumed input,
an operation list, and the resolved-image slot. -/
structure ImageOperator where
  image_input : Option ImageInput
  operations : List ImageOperation
  image : Option Img

/-- `ImageOperator::new` from `lib.rs`. -/
def ImageOperator.new (image_input : ImageInput) (operations : List ImageOperation) :
    ImageOperator :=
  { image_input := some image_input
    operations := operations
    image := none }

/-- `ImageOperator::apply_all_operations` from `lib.rs`: fail with
`InputImageAlreadyUsed` when the input slot is empty, otherwise resolve it,
fold the operations, and return an operator with an emptied input slot and
the final buffer stored. -/
def ImageOperator.apply_all_operations (op : ImageOperator) : Except Errors ImageOperator :=
  match op.image_input with
  | none => .error Errors.InputImageAlreadyUsed
  | some input =>
    match input.get_image with
    | .error e => .error e
    | .ok image0 =>
      match applyOps op.operations image0 with
      | .error e => .error e
      | .ok image => .ok { image_input := none, operations := [], image := some image }

/-- `ImageOperator::get_image` from `lib.rs`: hand out the resolved slot. -/
def ImageOperator.get_image (op : ImageOperator) : Option Img :=
  op.image

/-- Split a character list at a separator character (helper for the line and
word splitting below); the separator is consumed. -/
def splitCharAux (sep : Char) : List Char → List Char → List (List Char)
  | [], acc => [acc.reverse]
  | c :: rest, acc =>
    if c = sep then acc.reverse :: splitCharAux sep rest []
    else splitCharAux sep rest (c :: acc)

/-- One trailing carriage return is removed from a line that was terminated
by a newline (the `\r\n` line ending of Rust `str::lines`). -/
def stripTrailingCR (l : List Char) : List Char :=
  if l.getLast? = some '\x0d' then l.dropLast else l

/-- Model of Rust `str::lines` (used twice in `draw_text`): split at `\n` or
`\r\n`; the final line ending is optional and produces no empty last line. -/
def rustLines (s : String) : List String :=
  let parts := splitCharAux '\n' s.data []
  let body := parts.dropLast.map (fun l => String.mk (stripTrailingCR l))
  match parts.getLast? with
  | some [] => body
  | some l => body ++ [String.mk l]
  | none => body

/-- Model of `rusttype::Scale`: horizontal and vertical font scale factors. -/
structure ScaleQ where
  x : ℚ
  y : ℚ

/-- Model of `rusttype::VMetrics` at a given scale. -/
structure VMetricsQ where
  ascent : ℚ
  descent : ℚ
  lineGap : ℚ

/-- Model of one positioned glyph of `rusttype::Font::layout`: its
`position().x` and its horizontal advance width. -/
structure GlyphQ where
  posX : ℚ
  advance : ℚ

/-- Model of the `rusttype::Font` collaborator at the interface `draw_text`
uses: vertical metrics per scale, and the positioned-glyph sequence that
`font.layout(text, scale, point(0.0, 0.0))` yields. -/
structure FontModel where
  vMetrics : ScaleQ → VMetricsQ
  layout : String → ScaleQ → List GlyphQ

/-- `get_font_height` from `lib.rs`: `v_metrics.ascent - v_metrics.descent
+ v_metrics.line_gap`. -/
def get_font_height (font : FontModel) (scale : ScaleQ) : ℚ :=
  (font.vMetrics scale).ascent - (font.vMetrics scale).descent + (font.vMetrics scale).lineGap

/-- `measure_line_width` from `lib.rs`: the last glyph's `position().x +
advance_width`, or `0.0` for an empty layout. -/
def measure_line_width (font : FontModel) (text : String) (scale : ScaleQ) : ℚ :=
  (((font.layout text scale).map (fun g => g.posX + g.advance)).getLast?).getD 0

/-- The Rust `as i32` cast applied to an `f32` value: truncation toward
zero. -/
def qtrunc (q : ℚ) : ℤ :=
  if 0 ≤ q then q.floor else q.ceil

/-- One call to the `imageproc::drawing::draw_text_mut` collaborator, as
recorded by the embedded `draw_text`: the computed origin and the line text
(colour, scale and font are passed through unchanged). -/
structure DrawCmd where
  x : ℤ
  y : ℤ
  text : String
  deriving DecidableEq, Repr

/-- The loop body of `draw_text` from `lib.rs` for one non-empty line:
`x = raw_x - (text_width as i32) / 2`,
`y_delta = ((index as f32 - (line_count - 1) as f32 / 2f32) * text_height) as i32`,
`y = raw_y + y_delta` (with `line_count - 1` computed on `u32`, modelled by
truncated `Nat` subtraction). -/
def lineCmd (font : FontModel) (scale : ScaleQ) (mid : ℤ × ℤ) (line_count : Nat)
    (index : Nat) (text : String) : DrawCmd :=
  let text_height := get_font_height font scale
  let text_width := measure_line_width font text scale
  let x := mid.1 - Int.tdiv (qtrunc text_width) 2
  let y_delta := qtrunc (((index : ℚ) - ((line_count - 1 : ℕ) : ℚ) / 2) * text_height)
  ⟨x, mid.2 + y_delta, text⟩

/-- `draw_text` from `lib.rs`: enumerate the lines of the full text, skip
empty ones, and emit one `draw_text_mut` call per remaining line at the
computed origin. -/
def draw_text (font : FontModel) (fulltext : String) (scale : ScaleQ) (mid : ℤ × ℤ) :
    List DrawCmd :=
  let line_count := (rustLines fulltext).length
  (rustLines fulltext).enum.filterMap fun p =>
    if p.2.data.isEmpty then none
    else some (lineCmd font scale mid line_count p.1 p.2)

/-- The text-preprocessing step of the `DrawText` arm of
`ImageOperation::apply`: `if let Some(width) = max_width { text =
textwrap::fill(&text, width); }`, with the external `textwrap::fill`
collaborator passed in as a black box. -/
def draw_text_preprocess (fill : String → Nat → String) (max_width : Option Nat)
    (text : String) : String :=
  match max_width with
  | some width => fill text width
  | none => text

/-- Greedy accumulation of words into lines of at most `width` characters
(words join with a single space; an oversized word gets its own line). -/
def greedyWrap (width : Nat) : List String → Option String → List String
  | [], none => []
  | [], some cur => [cur]
  | word :: rest, none => greedyWrap width rest (some word)
  | word :: rest, some cur =>
    if cur.length + 1 + word.length ≤ width then
      greedyWrap width rest (some (cur ++ " " ++ word))
    else
      cur :: greedyWrap width rest (some word)

/-- Modelled from the spec: the external wrapping collaborator
(`textwrap::fill`), "a black box that returns rewrapped text with inserted
newlines", here instantiated as a greedy word wrap applied to each line. -/
def textwrap_fill (text : String) (width : Nat) : String :=
  let lines := (splitCharAux '\n' text.data []).map (fun l => String.mk l)
  let wrapLine := fun (l : String) =>
    let words := ((splitCharAux ' ' l.data []).map (fun w => String.mk w)).filter
      (fun w => !w.data.isEmpty)
    String.intercalate "\n" (greedyWrap width words none)
  String.intercalate "\n" (lines.map wrapLine)

/-- A monospace test font: every glyph advances by 1, fixed vertical
metrics; used to instantiate the abstract font collaborator on concrete
inputs. -/
def fontW : FontModel :=
  { vMetrics := fun _ => ⟨10, -2, 1⟩
    layout := fun s _ => (List.range s.length).map (fun k => ⟨(k : ℚ), 1⟩) }

/-- `filterMap` with an if-guarded body is `filter` followed by `map`. -/
theorem filterMap_if_eq_filter_map {α β : Type} (c : α → Bool) (f : α → β) (l : List α) :
    l.filterMap (fun p => if c p then none else some (f p)) =
      (l.filter (fun p => !c p)).map f := by
  induction l with
  | nil => rfl
  | cons a t ih =>
    by_cases h : c a <;> simp [List.filterMap_cons, List.filter_cons, h, ih]

/-- C10: an `ImageOperator` freshly built by `ImageOperator::new` has an
empty resolved-image slot, so `get_image` returns `None` before any call to
`apply_all_operations`. -/
theorem C10_new_get_image_none (input : ImageInput) (ops : List ImageOperation) :
    (ImageOperator.new input ops).image = none ∧
      (ImageOperator.new input ops).get_image = none :=
  ⟨rfl, rfl⟩

/-- C1: a pipeline is single-shot: whenever `apply_all_operations`
succeeds, the returned operator's input slot is empty, and calling
`apply_all_operations` on it fails with `InputImageAlreadyUsed`. -/
theorem C1_single_use (op res : ImageOperator)
    (h : op.apply_all_operations = Except.ok res) :
    res.image_input = none ∧
      res.apply_all_operations = Except.error Errors.InputImageAlreadyUsed := by
  unfold ImageOperator.apply_all_operations at h
  split at h
  · cases h
  · split at h
    · cases h
    · split at h
      · cases h
      · cases h
        exact ⟨rfl, rfl⟩

theorem C1_single_use_witness :
    ({ image_input := none, operations := [],
       image := some (Img.rotate180 (fill_color (5, 5, 5) (1, 1))) } :
        ImageOperator).image_input = none ∧
      ({ image_input := none, operations := [],
         image := some (Img.rotate180 (fill_color (5, 5, 5) (1, 1))) } :
          ImageOperator).apply_all_operations
        = Except.error Errors.InputImageAlreadyUsed :=
  C1_single_use
    (ImageOperator.new ⟨ImageInputType.Color 5 5 5 (1, 1), []⟩ [ImageOperation.Rotate180])
    _ rfl

/-- C3: `ColorBlend` keeps the dimensions, maps each in-bounds pixel's
first three channels to `original / 2 + constant / 2` with truncating
division, and leaves the fourth (alpha) channel untouched. -/
theorem C3_color_blend_formula (img : Img) (r g b x y : Nat)
    (hx : x < img.w) (hy : y < img.h) :
    (color_blend r g b img).w = img.w ∧ (color_blend r g b img).h = img.h ∧
      (color_blend r g b img).pix x y =
        ⟨(img.pix x y).r / 2 + r / 2, (img.pix x y).g / 2 + g / 2,
          (img.pix x y).b / 2 + b / 2, (img.pix x y).a⟩ := by
  refine ⟨rfl, rfl, ?_⟩
  simp [color_blend, blend_pixel, hx, hy]

theorem C3_color_blend_formula_witness :
    (color_blend 3 5 7 ⟨1, 1, fun _ _ => ⟨10, 20, 30, 40⟩⟩).w =
        (⟨1, 1, fun _ _ => ⟨10, 20, 30, 40⟩⟩ : Img).w ∧
      (color_blend 3 5 7 ⟨1, 1, fun _ _ => ⟨10, 20, 30, 40⟩⟩).h =
        (⟨1, 1, fun _ _ => ⟨10, 20, 30, 40⟩⟩ : Img).h ∧
      (color_blend 3 5 7 ⟨1, 1, fun _ _ => ⟨10, 20, 30, 40⟩⟩).pix 0 0 =
        ⟨((⟨1, 1, fun _ _ => ⟨10, 20, 30, 40⟩⟩ : Img).pix 0 0).r / 2 + 3 / 2,
          ((⟨1, 1, fun _ _ => ⟨10, 20, 30, 40⟩⟩ : Img).pix 0 0).g / 2 + 5 / 2,
          ((⟨1, 1, fun _ _ => ⟨10, 20, 30, 40⟩⟩ : Img).pix 0 0).b / 2 + 7 / 2,
          ((⟨1, 1, fun _ _ => ⟨10, 20, 30, 40⟩⟩ : Img).pix 0 0).a⟩ :=
  C3_color_blend_formula ⟨1, 1, fun _ _ => ⟨10, 20, 30, 40⟩⟩ 3 5 7 0 0
    (by decide) (by decide)

/-- C2 counterexample: a buffer whose every pixel is `(1,1,1)` is not a
fixed point of `ColorBlend` with constant `(1,1,1)`: the odd channels drop
from 1 to 0. -/
theorem C2_fixed_point_counterexample :
    (color_blend 1 1 1 ⟨1, 1, fun _ _ => ⟨1, 1, 1, 255⟩⟩).pix 0 0 ≠
      (⟨1, 1, fun _ _ => ⟨1, 1, 1, 255⟩⟩ : Img).pix 0 0 := by
  decide

/-- C2 (amended): when the constant `c` is even and every in-bounds pixel's
first three channels equal `c`, `ColorBlend` with `(c, c, c)` leaves every
in-bounds pixel unchanged. -/
theorem C2_fixed_point_even (img : Img) (c : Nat) (hc : c % 2 = 0)
    (hpix : ∀ x y, x < img.w → y < img.h →
      (img.pix x y).r = c ∧ (img.pix x y).g = c ∧ (img.pix x y).b = c)
    (x y : Nat) (hx : x < img.w) (hy : y < img.h) :
    (color_blend c c c img).pix x y = img.pix x y := by
  obtain ⟨hr, hg, hb⟩ := hpix x y hx hy
  have hcc : c / 2 + c / 2 = c := by omega
  cases hpx : img.pix x y with
  | mk pr pg pb pa =>
    rw [hpx] at hr hg hb
    dsimp only at hr hg hb
    subst hr hg hb
    simp [color_blend, blend_pixel, hx, hy, hpx, hcc]

theorem C2_fixed_point_even_witness :
    (color_blend 2 2 2 ⟨1, 1, fun _ _ => ⟨2, 2, 2, 9⟩⟩).pix 0 0 =
      (⟨1, 1, fun _ _ => ⟨2, 2, 2, 9⟩⟩ : Img).pix 0 0 :=
  C2_fixed_point_even ⟨1, 1, fun _ _ => ⟨2, 2, 2, 9⟩⟩ 2 (by decide)
    (fun _ _ _ _ => ⟨rfl, rfl, rfl⟩) 0 0 (by decide) (by decide)

/-- C8: every filter name other than the five recognised ones makes
`filter_from_str` fail with `InvalidResizeFilter`, and every buffer-kind
name other than the six recognised ones makes resolution of a `New` input
fail with `InvalidImageType`. -/
theorem C8_unknown_filter_and_type_rejected (filter type_ : String) (h w : Nat)
    (hf : filter ∉ ["Nearest", "Triangle", "CatmullRom", "Gaussian", "Lanczos3"])
    (ht : type_ ∉ ["RgbImage", "RgbaImage", "GrayImage", "GrayAlphaImage",
      "Rgb32FImage", "Rgba32FImage"]) :
    filter_from_str filter = Except.error Errors.InvalidResizeFilter ∧
      (ImageInputType.New h w type_).get_image = Except.error Errors.InvalidImageType := by
  constructor
  · unfold filter_from_str
    split <;> simp_all
  · show new_image type_ h w = Except.error Errors.InvalidImageType
    unfold new_image
    split <;> simp_all

theorem C8_unknown_filter_and_type_rejected_witness :
    filter_from_str "Bogus" = Except.error Errors.InvalidResizeFilter ∧
      (ImageInputType.New 1 1 "Bogus").get_image = Except.error Errors.InvalidImageType :=
  C8_unknown_filter_and_type_rejected "Bogus" "Bogus" 1 1 (by decide) (by decide)

/-- C9: rotating twice by 180 degrees restores the dimensions and every
in-bounds pixel, and rotating four times by 90 degrees does likewise. -/
theorem C9_rotation_involution (img : Img) (x y : Nat) (hx : x < img.w) (hy : y < img.h) :
    (img.rotate180.rotate180.w = img.w ∧ img.rotate180.rotate180.h = img.h ∧
      img.rotate180.rotate180.pix x y = img.pix x y) ∧
    (img.rotate90.rotate90.rotate90.rotate90.w = img.w ∧
      img.rotate90.rotate90.rotate90.rotate90.h = img.h ∧
      img.rotate90.rotate90.rotate90.rotate90.pix x y = img.pix x y) := by
  have h1 : img.w - 1 - (img.w - 1 - x) = x := by omega
  have h2 : img.h - 1 - (img.h - 1 - y) = y := by omega
  refine ⟨⟨rfl, rfl, ?_⟩, ⟨rfl, rfl, ?_⟩⟩
  · simp [Img.rotate180, h1, h2]
  · simp [Img.rotate90, h1, h2]

theorem C9_rotation_involution_witness :
    ((⟨2, 3, fun x y => ⟨x, y, 0, 255⟩⟩ : Img).rotate180.rotate180.w =
        (⟨2, 3, fun x y => ⟨x, y, 0, 255⟩⟩ : Img).w ∧
      (⟨2, 3, fun x y => ⟨x, y, 0, 255⟩⟩ : Img).rotate180.rotate180.h =
        (⟨2, 3, fun x y => ⟨x, y, 0, 255⟩⟩ : Img).h ∧
      (⟨2, 3, fun x y => ⟨x, y, 0, 255⟩⟩ : Img).rotate180.rotate180.pix 1 2 =
        (⟨2, 3, fun x y => ⟨x, y, 0, 255⟩⟩ : Img).pix 1 2) ∧
    ((⟨2, 3, fun x y => ⟨x, y, 0, 255⟩⟩ : Img).rotate90.rotate90.rotate90.rotate90.w =
        (⟨2, 3, fun x y => ⟨x, y, 0, 255⟩⟩ : Img).w ∧
      (⟨2, 3, fun x y => ⟨x, y, 0, 255⟩⟩ : Img).rotate90.rotate90.rotate90.rotate90.h =
        (⟨2, 3, fun x y => ⟨x, y, 0, 255⟩⟩ : Img).h ∧
      (⟨2, 3, fun x y => ⟨x, y, 0, 255⟩⟩ : Img).rotate90.rotate90.rotate90.rotate90.pix 1 2 =
        (⟨2, 3, fun x y => ⟨x, y, 0, 255⟩⟩ : Img).pix 1 2) :=
  C9_rotation_involution ⟨2, 3, fun x y => ⟨x, y, 0, 255⟩⟩ 1 2 (by decide) (by decide)

/-- C6: `draw_text` draws nothing for an empty line, and every non-empty
line keeps the index assigned by the original enumeration: the emitted
commands are exactly the non-empty lines, each placed with its original
index. -/
theorem C6_empty_lines_skipped (font : FontModel) (fulltext : String) (scale : ScaleQ)
    (mid : ℤ × ℤ) :
    draw_text font fulltext scale mid =
      ((rustLines fulltext).enum.filter (fun p => !p.2.data.isEmpty)).map
        (fun p => lineCmd font scale mid (rustLines fulltext).length p.1 p.2) := by
  simp only [draw_text]
  exact filterMap_if_eq_filter_map (fun p => p.2.data.isEmpty)
    (fun p => lineCmd font scale mid (rustLines fulltext).length p.1 p.2)
    (rustLines fulltext).enum

/-- C4: the command drawn for the non-empty line at 0-indexed position `i`
of an `N`-line text is emitted by `draw_text` and sits at vertical offset
`(i − (N − 1)/2) · line_height` (truncated to `i32`) below `mid.y`, where
`line_height = ascent − descent + line_gap` at the given scale — a constant
independent of the line's content. -/
theorem C4_vertical_placement (font : FontModel) (fulltext : String) (scale : ScaleQ)
    (mid : ℤ × ℤ) (i : Nat) (line : String)
    (hline : (rustLines fulltext)[i]? = some line) (hne : line.data.isEmpty = false) :
    lineCmd font scale mid (rustLines fulltext).length i line ∈
        draw_text font fulltext scale mid ∧
      (lineCmd font scale mid (rustLines fulltext).length i line).y =
        mid.2 + qtrunc (((i : ℚ) - (((rustLines fulltext).length : ℚ) - 1) / 2) *
          ((font.vMetrics scale).ascent - (font.vMetrics scale).descent +
            (font.vMetrics scale).lineGap)) := by
  have hi : i < (rustLines fulltext).length := by
    rcases List.getElem?_eq_some.mp hline with ⟨hlt, -⟩
    exact hlt
  constructor
  · simp only [draw_text]
    apply List.mem_filterMap.mpr
    refine ⟨(i, line), List.mem_enum_iff_getElem?.mpr hline, ?_⟩
    simp [hne]
  · have hN : ((rustLines fulltext).length - 1 : ℕ) = ((rustLines fulltext).length : ℚ) - 1 := by
      have : 1 ≤ (rustLines fulltext).length := by omega
      push_cast [this]
      ring
    simp only [lineCmd, get_font_height, hN]

theorem C4_vertical_placement_witness :
    lineCmd fontW ⟨1, 1⟩ (100, 50) (rustLines "ab\ncd").length 0 "ab" ∈
        draw_text fontW "ab\ncd" ⟨1, 1⟩ (100, 50) ∧
      (lineCmd fontW ⟨1, 1⟩ (100, 50) (rustLines "ab\ncd").length 0 "ab").y =
        ((100, 50) : ℤ × ℤ).2 +
          qtrunc ((((0 : ℕ) : ℚ) - (((rustLines "ab\ncd").length : ℚ) - 1) / 2) *
            ((fontW.vMetrics ⟨1, 1⟩).ascent - (fontW.vMetrics ⟨1, 1⟩).descent +
              (fontW.vMetrics ⟨1, 1⟩).lineGap)) :=
  C4_vertical_placement fontW "ab\ncd" ⟨1, 1⟩ (100, 50) 0 "ab" (by decide) (by decide)

/-- C5: every command emitted by `draw_text` is horizontally centred
independently of the other lines: its left edge is `mid.x` minus half the
drawn line's own measured width (the `f32` width cast to `i32`, halved with
truncating `i32` division). -/
theorem C5_horizontal_centering (font : FontModel) (fulltext : String) (scale : ScaleQ)
    (mid : ℤ × ℤ) (cmd : DrawCmd) (hmem : cmd ∈ draw_text font fulltext scale mid) :
    cmd.x = mid.1 - Int.tdiv (qtrunc (measure_line_width font cmd.text scale)) 2 := by
  simp only [draw_text] at hmem
  obtain ⟨p, hp, hf⟩ := List.mem_filterMap.mp hmem
  by_cases he : p.2.data.isEmpty = true
  · simp [he] at hf
  · rw [if_neg he, Option.some.injEq] at hf
    subst hf
    rfl

theorem C5_horizontal_centering_witness :
    (lineCmd fontW ⟨1, 1⟩ (7, 9) 1 0 "hi").x =
      ((7, 9) : ℤ × ℤ).1 -
        Int.tdiv
          (qtrunc (measure_line_width fontW (lineCmd fontW ⟨1, 1⟩ (7, 9) 1 0 "hi").text ⟨1, 1⟩))
          2 :=
  C5_horizontal_centering fontW "hi" ⟨1, 1⟩ (7, 9)
    (lineCmd fontW ⟨1, 1⟩ (7, 9) 1 0 "hi") (List.Mem.head _)

/-- C7 counterexample: with a maximum width supplied the `DrawText` arm
invokes the wrapping collaborator even on text that already contains a
newline, so such text is not drawn as-is. -/
theorem C7_wrap_condition_counterexample :
    draw_text_preprocess textwrap_fill (some 1) "a b\nc" ≠ "a b\nc" := by
  decide

/-- C7 (amended): the `DrawText` arm hands the text to the wrapping
collaborator exactly when a maximum width is supplied — whether or not the
text contains a newline — and draws the text as-is when no maximum width is
supplied. -/
theorem C7_wrap_condition_amended (fill : String → Nat → String) (text : String)
    (width : Nat) :
    draw_text_preprocess fill (some width) text = fill text width ∧
      draw_text_preprocess fill none text = text :=
  ⟨rfl, rfl⟩
